import Mathlib

/-!
Verification of the session / result-serialization layer of go-mysqlstack
(`driver/session.go`).

The embedding works at the packet-event level: the frame writer
(`packet.Packets`) buffers one abstract packet per append call and emits a
flush event on `Flush`; every session method is translated into a pure
function returning the list of events it emitted together with an optional
error (Go's `(sideEffects, error)` shape).  Collaborator code that is part
of the repository but not under `src/` (the frame writer, the `sqldb` error
constants, the `common.Buffer` length encoders) is modelled from the spec,
as marked in the doc comments.
-/

namespace MysqlStack

/-- Column descriptor (`sqltypes.Field`): the session code only forwards the
whole descriptor to `AppendColumns`, so its contents are abstract here. -/
structure Field where
  name : String
  type : Nat
  flags : Nat
deriving DecidableEq, Repr

/-- A nullable raw-encoded value (`sqltypes.Value`): the session code only
calls `IsNull()` and `Raw()` on it. -/
structure Value where
  isNull : Bool
  raw : List Nat
deriving DecidableEq, Repr

/-- `sqltypes.RState`: which phases of the write protocol this call runs. -/
inductive RState where
  | None
  | Fields
  | Rows
  | Finished
deriving DecidableEq, Repr

/-- `sqltypes.Result` as consumed by `session.go`. -/
structure Result where
  fields : List Field
  rows : List (List Value)
  rowsAffected : Nat
  insertID : Nat
  warnings : Nat
  state : RState
deriving DecidableEq, Repr

/-- `sqldb.SQLError`: numeric code, SQL state, message. -/
structure SQLError where
  num : Nat
  state : String
  message : String
deriving DecidableEq, Repr

/-- A Go `error` value handed to `writeErrFromError`: either already a
`*sqldb.SQLError`, or any other error carrying only a textual description. -/
inductive GoError where
  | sqlErr (se : SQLError)
  | other (msg : String)
deriving DecidableEq, Repr

/-- An error returned by a session write path: a protocol error or a plain
formatted error (`fmt.Errorf`). -/
inductive Err where
  | sqlE (se : SQLError)
  | str (msg : String)
deriving DecidableEq, Repr

/-- Modelled from the spec: the capability bit that replaces legacy EOF
terminal markers by OK-shaped terminals (`sqldb.CLIENT_DEPRECATE_EOF`,
not under `src/`).  Its concrete position is irrelevant to the claims;
it is a fixed single bit. -/
def CLIENT_DEPRECATE_EOF : Nat := 2 ^ 24

/-- Modelled from the spec: generic unknown-error code synthesized by the
error mapper for unclassified failures (`sqldb.ER_UNKNOWN_ERROR`). -/
def ER_UNKNOWN_ERROR : Nat := 1105

/-- Modelled from the spec: `sqldb.NewSQLError(ER_UNKNOWN_ERROR, msg)`
produces the generic unknown-error code and state with the failure's
textual description as the message. -/
def newSQLError (num : Nat) (msg : String) : SQLError :=
  { num := num, state := "HY000", message := msg }

/-- Modelled from the spec: `common.Buffer.WriteLenEncodeNUL` appends the
single null marker token (the wire byte 0xfb). -/
def writeLenEncodeNUL : List Nat := [251]

/-- Modelled from the spec: the MySQL length-encoded-integer primitive used
by `common.Buffer.WriteLenEncode` (out-of-scope library, assumed correct):
values below 251 in one byte, then 0xfc/0xfd/0xfe prefixed little-endian
forms. -/
def writeLenEncode (n : Nat) : List Nat :=
  if n < 251 then [n]
  else if n < 2 ^ 16 then [252, n % 256, n / 256 % 256]
  else if n < 2 ^ 24 then [253, n % 256, n / 256 % 256, n / 2 ^ 16 % 256]
  else [254, n % 256, n / 256 % 256, n / 2 ^ 16 % 256, n / 2 ^ 24 % 256,
        n / 2 ^ 32 % 256, n / 2 ^ 40 % 256, n / 2 ^ 48 % 256, n / 2 ^ 56 % 256]

/-- Modelled from the spec: `common.Buffer.WriteLenEncodeBytes` appends the
length-prefixed raw-bytes encoding of a value. -/
def writeLenEncodeBytes (b : List Nat) : List Nat :=
  writeLenEncode b.length ++ b

/-- One abstract buffered packet, as handed to the frame writer.  Modelled
from the spec: the frame writer buffers exactly one packet per append call;
its byte-level framing is out of scope. -/
inductive Packet where
  | columns (fields : List Field)
  | eof
  | row (data : List Nat)
  | okWithEOFHeader (rowsAffected insertID status warnings : Nat)
  | ok (rowsAffected insertID status warnings : Nat)
  | err (num : Nat) (state : String) (msg : String)
deriving DecidableEq, Repr

/-- One observable event of a write call: a buffered packet or a flush of
the buffer to the transport. -/
inductive Event where
  | pkt (p : Packet)
  | flush
deriving DecidableEq, Repr

/-- The session state a write call reads: the negotiated client capability
flags (`s.auth.ClientFlags()`), the greeting status (`s.greeting.Status()`),
and fault models for the frame-writer collaborator (an append or the flush
may fail with an I/O error). -/
structure Session where
  clientFlags : Nat
  status : Nat
  appendErr : Packet → Option Err
  flushErr : Option Err

/-- A session whose frame writer never fails. -/
def cleanSession (flags status : Nat) : Session :=
  { clientFlags := flags, status := status,
    appendErr := fun _ => none, flushErr := none }

/-- One append call on the frame writer: on success it buffers the packet,
on failure it emits nothing and returns the collaborator's error. -/
def appendPkt (s : Session) (p : Packet) : List Event × Option Err :=
  match s.appendErr p with
  | some e => ([], some e)
  | none => ([Event.pkt p], none)

/-- Go-style sequencing with early return: if the first call errored, the
second never runs. -/
def seqE (a : List Event × Option Err) (f : Unit → List Event × Option Err) :
    List Event × Option Err :=
  match a with
  | (t, some e) => (t, some e)
  | (t, none) =>
      match f () with
      | (t2, r) => (t ++ t2, r)

/-- `Session.writeFields`: append one packet with all column descriptors,
then, when the deprecate-EOF capability bit is unset, the legacy terminal
marker (`AppendEOF`). -/
def writeFields (s : Session) (result : Result) : List Event × Option Err :=
  seqE (appendPkt s (Packet.columns result.fields)) fun _ =>
    if s.clientFlags &&& CLIENT_DEPRECATE_EOF = 0 then
      appendPkt s Packet.eof
    else
      ([], none)

/-- The row-value encoding used by `Session.writeRows`: the null marker for
null values, otherwise the length-prefixed raw bytes. -/
def encodeValue (v : Value) : List Nat :=
  if v.isNull then writeLenEncodeNUL else writeLenEncodeBytes v.raw

/-- The payload of one row packet: the concatenated value encodings, in
order (`rowBuf` in `Session.writeRows`). -/
def rowBytes (row : List Value) : List Nat :=
  (row.map encodeValue).flatten

/-- The row loop of `Session.writeRows`: one `Append` per row, stopping at
the first error. -/
def writeRowsAux (s : Session) : List (List Value) → List Event × Option Err
  | [] => ([], none)
  | r :: rs => seqE (appendPkt s (Packet.row (rowBytes r))) fun _ =>
      writeRowsAux s rs

/-- `Session.writeRows`. -/
def writeRows (s : Session) (result : Result) : List Event × Option Err :=
  writeRowsAux s result.rows

/-- `Session.writeFinish`: the terminal packet, chosen by the deprecate-EOF
capability bit — the legacy marker when unset, the OK-shaped terminal
(`AppendOKWithEOFHeader`) carrying rows-affected, last-insert-id, greeting
status and warnings when set. -/
def writeFinish (s : Session) (result : Result) : List Event × Option Err :=
  if s.clientFlags &&& CLIENT_DEPRECATE_EOF = 0 then
    appendPkt s Packet.eof
  else
    appendPkt s (Packet.okWithEOFHeader result.rowsAffected result.insertID
      s.status result.warnings)

/-- `Session.flush`: hand the buffered packets to the transport. -/
def flush (s : Session) : List Event × Option Err :=
  match s.flushErr with
  | some e => ([], some e)
  | none => ([Event.flush], none)

/-- Modelled from the spec: `packet.Packets.WriteOK` (not under `src/`)
emits a single OK packet carrying rows-affected, last-insert-id, status and
warnings, and hands it to the transport. -/
def writeOK (s : Session) (rowsAffected insertID status warnings : Nat) :
    List Event × Option Err :=
  seqE (appendPkt s (Packet.ok rowsAffected insertID status warnings)) fun _ =>
    flush s

/-- Modelled from the spec: `packet.Packets.WriteERR` (not under `src/`)
emits a single well-formed error packet with the given code, SQL state and
message, and hands it to the transport. -/
def writeERR (s : Session) (num : Nat) (state msg : String) :
    List Event × Option Err :=
  seqE (appendPkt s (Packet.err num state msg)) fun _ =>
    flush s

/-- `Session.writeErrFromError`: pass a `*sqldb.SQLError` through unchanged,
otherwise synthesize the generic unknown-error code/state around the
failure's textual description. -/
def writeErrFromError (s : Session) (err : GoError) : List Event × Option Err :=
  match err with
  | GoError.sqlErr se => writeERR s se.num se.state se.message
  | GoError.other msg =>
      let unknow := newSQLError ER_UNKNOWN_ERROR msg
      writeERR s unknow.num unknow.state unknow.message

/-- The `switch result.State` block of `Session.writeResult` (the non-empty
`Fields` path). -/
def resultPhases (s : Session) (result : Result) : List Event × Option Err :=
  match result.state with
  | RState.None =>
      seqE (writeFields s result) fun _ =>
        seqE (writeRows s result) fun _ =>
          writeFinish s result
  | RState.Fields => writeFields s result
  | RState.Rows => writeRows s result
  | RState.Finished => writeFinish s result

/-- `Session.writeResult`: the top-level dispatch.  Empty `Fields` with
state `None` is a pure mutation acknowledgment (one `WriteOK`); empty
`Fields` with any other state is a shape violation; otherwise run the
phases selected by the state and flush. -/
def writeResult (s : Session) (result : Result) : List Event × Option Err :=
  if result.fields.length = 0 then
    if result.state = RState.None then
      writeOK s result.rowsAffected result.insertID s.status result.warnings
    else
      ([], some (Err.str "unexpected: result.without.no.fields.but.has.rows.result"))
  else
    seqE (resultPhases s result) fun _ => flush s

/-- The packets of a trace, with flush boundaries erased. -/
def packetsOfTrace (t : List Event) : List Packet :=
  t.filterMap fun e =>
    match e with
    | Event.pkt p => some p
    | Event.flush => none

/-- A terminal-shaped packet: the legacy marker or the OK-shaped terminal. -/
def isTerminalPacket : Packet → Bool
  | Packet.eof => true
  | Packet.okWithEOFHeader _ _ _ _ => true
  | _ => false

/-- Whether a finish-phase trace used the legacy terminal marker. -/
def usesLegacyTerminal (s : Session) (result : Result) : Bool :=
  match (writeFinish s result).1 with
  | [Event.pkt Packet.eof] => true
  | _ => false

/-- The mutable connection surface of a `Session` relevant to `Close`:
whether the transport is present, instrumented with how many times
`conn.Close()` has been invoked on it. -/
structure ConnState where
  connPresent : Bool
  closedCount : Nat
deriving DecidableEq, Repr

/-- `Session.Close()`: close the transport if present and mark it absent;
otherwise do nothing.  The Go method returns no error by type. -/
def closeSession (st : ConnState) : ConnState :=
  if st.connPresent then
    { connPresent := false, closedCount := st.closedCount + 1 }
  else
    st

/-- The two modes of the session's reader/writer lock (`sync.RWMutex`). -/
inductive LockMode where
  | shared
  | exclusive
deriving DecidableEq, Repr

/-- The public session methods that touch the lock. -/
inductive SessionMethod where
  | close
  | id
  | addr
  | setSchema
  | schema
  | user
  | salt
  | scramble
  | charset
deriving DecidableEq, Repr

/-- The lock mode each method acquires, read off the source: `Close` uses
`s.mu.RLock()` (session.go line 145), `SetSchema` uses `s.mu.Lock()`
(line 170), every accessor uses `s.mu.RLock()`. -/
def lockModeOf : SessionMethod → LockMode
  | SessionMethod.setSchema => LockMode.exclusive
  | _ => LockMode.shared

/-- `sync.RWMutex` semantics: two critical sections can overlap exactly when
both hold the shared mode. -/
def mayRunConcurrently (a b : LockMode) : Bool :=
  a == LockMode.shared && b == LockMode.shared

/-! ## Helper lemmas -/

theorem seqE_err (t : List Event) (e : Err) (f : Unit → List Event × Option Err) :
    seqE (t, some e) f = (t, some e) := rfl

theorem seqE_ok (t : List Event) (f : Unit → List Event × Option Err) :
    seqE (t, none) f = (t ++ (f ()).1, (f ()).2) := by
  rcases h : f () with ⟨t2, r⟩
  simp [seqE, h]

theorem appendPkt_clean (fl st : Nat) (p : Packet) :
    appendPkt (cleanSession fl st) p = ([Event.pkt p], none) := rfl

theorem writeFields_clean (fl st : Nat) (r : Result) :
    writeFields (cleanSession fl st) r =
      (if fl &&& CLIENT_DEPRECATE_EOF = 0 then
         [Event.pkt (Packet.columns r.fields), Event.pkt Packet.eof]
       else [Event.pkt (Packet.columns r.fields)], none) := by
  by_cases h : fl &&& CLIENT_DEPRECATE_EOF = 0 <;>
    simp [writeFields, appendPkt, cleanSession, seqE, h]

theorem writeRowsAux_clean (fl st : Nat) (rows : List (List Value)) :
    writeRowsAux (cleanSession fl st) rows =
      (rows.map fun row => Event.pkt (Packet.row (rowBytes row)), none) := by
  induction rows with
  | nil => rfl
  | cons r rs ih => simp [writeRowsAux, appendPkt_clean, seqE_ok, ih]

theorem writeRows_clean (fl st : Nat) (r : Result) :
    writeRows (cleanSession fl st) r =
      (r.rows.map fun row => Event.pkt (Packet.row (rowBytes row)), none) :=
  writeRowsAux_clean fl st r.rows

theorem writeFinish_clean (fl st : Nat) (r : Result) :
    writeFinish (cleanSession fl st) r =
      (if fl &&& CLIENT_DEPRECATE_EOF = 0 then [Event.pkt Packet.eof]
       else [Event.pkt (Packet.okWithEOFHeader r.rowsAffected r.insertID st r.warnings)],
       none) := by
  by_cases h : fl &&& CLIENT_DEPRECATE_EOF = 0 <;>
    simp [writeFinish, appendPkt, cleanSession, h]

theorem flush_clean (fl st : Nat) : flush (cleanSession fl st) = ([Event.flush], none) := rfl

theorem flush_notin_appendPkt (s : Session) (p : Packet) :
    Event.flush ∉ (appendPkt s p).1 := by
  rcases h : s.appendErr p with _ | e <;> simp [appendPkt, h]

theorem flush_notin_seqE (a : List Event × Option Err) (f : Unit → List Event × Option Err)
    (ha : Event.flush ∉ a.1) (hf : Event.flush ∉ (f ()).1) :
    Event.flush ∉ (seqE a f).1 := by
  rcases a with ⟨t, o⟩
  cases o with
  | some e => simpa [seqE] using ha
  | none =>
      rw [seqE_ok]
      simp only [List.mem_append, not_or]
      exact ⟨ha, hf⟩

theorem flush_notin_writeFields (s : Session) (r : Result) :
    Event.flush ∉ (writeFields s r).1 := by
  unfold writeFields
  apply flush_notin_seqE
  · exact flush_notin_appendPkt s _
  · by_cases h : s.clientFlags &&& CLIENT_DEPRECATE_EOF = 0
    · rw [if_pos h]; exact flush_notin_appendPkt s _
    · rw [if_neg h]; simp

theorem flush_notin_writeRowsAux (s : Session) (rows : List (List Value)) :
    Event.flush ∉ (writeRowsAux s rows).1 := by
  induction rows with
  | nil => simp [writeRowsAux]
  | cons r rs ih =>
      unfold writeRowsAux
      exact flush_notin_seqE _ _ (flush_notin_appendPkt s _) ih

theorem flush_notin_writeRows (s : Session) (r : Result) :
    Event.flush ∉ (writeRows s r).1 :=
  flush_notin_writeRowsAux s r.rows

theorem flush_notin_writeFinish (s : Session) (r : Result) :
    Event.flush ∉ (writeFinish s r).1 := by
  unfold writeFinish
  by_cases h : s.clientFlags &&& CLIENT_DEPRECATE_EOF = 0
  · rw [if_pos h]; exact flush_notin_appendPkt s _
  · rw [if_neg h]; exact flush_notin_appendPkt s _

theorem packetsOfTrace_append (a b : List Event) :
    packetsOfTrace (a ++ b) = packetsOfTrace a ++ packetsOfTrace b :=
  List.filterMap_append a b _

theorem packetsOfTrace_pkt_map {α : Type} (f : α → Packet) (l : List α) :
    packetsOfTrace (l.map fun x => Event.pkt (f x)) = l.map f := by
  induction l with
  | nil => rfl
  | cons x xs ih =>
      simp only [List.map_cons, packetsOfTrace, List.filterMap_cons] at ih ⊢
      simp [ih]

theorem writeLenEncode_head_ne_nul (n : Nat) :
    ∃ h t, writeLenEncode n = h :: t ∧ h ≠ 251 := by
  unfold writeLenEncode
  by_cases h1 : n < 251
  · exact ⟨n, [], by rw [if_pos h1], by omega⟩
  · by_cases h2 : n < 2 ^ 16
    · exact ⟨252, [n % 256, n / 256 % 256], by rw [if_neg h1, if_pos h2], by omega⟩
    · by_cases h3 : n < 2 ^ 24
      · exact ⟨253, [n % 256, n / 256 % 256, n / 2 ^ 16 % 256],
          by rw [if_neg h1, if_neg h2, if_pos h3], by omega⟩
      · exact ⟨254, [n % 256, n / 256 % 256, n / 2 ^ 16 % 256, n / 2 ^ 24 % 256,
          n / 2 ^ 32 % 256, n / 2 ^ 40 % 256, n / 2 ^ 48 % 256, n / 2 ^ 56 % 256],
          by rw [if_neg h1, if_neg h2, if_neg h3], by omega⟩

theorem writeLenEncodeBytes_ne_nul (b : List Nat) :
    writeLenEncodeBytes b ≠ writeLenEncodeNUL := by
  obtain ⟨h, t, he, hne⟩ := writeLenEncode_head_ne_nul b.length
  unfold writeLenEncodeBytes writeLenEncodeNUL
  rw [he]
  intro hcontra
  simp [List.cons_append] at hcontra
  exact hne hcontra.1

theorem resultPhases_clean_none (fl st : Nat) (r : Result) (hs : r.state = RState.None) :
    resultPhases (cleanSession fl st) r =
      ((writeFields (cleanSession fl st) r).1 ++ (writeRows (cleanSession fl st) r).1
        ++ (writeFinish (cleanSession fl st) r).1, none) := by
  by_cases h : fl &&& CLIENT_DEPRECATE_EOF = 0 <;>
    simp [resultPhases, hs, writeFields_clean, writeRows_clean, writeFinish_clean, seqE, h]

theorem resultPhases_clean_snd (fl st : Nat) (r : Result) :
    (resultPhases (cleanSession fl st) r).2 = none := by
  rcases hst : r.state <;>
    by_cases h : fl &&& CLIENT_DEPRECATE_EOF = 0 <;>
      simp [resultPhases, hst, writeFields_clean, writeRows_clean, writeFinish_clean, seqE, h]

theorem packetsOfTrace_pkt_single (p : Packet) : packetsOfTrace [Event.pkt p] = [p] := rfl

theorem packetsOfTrace_flush_single : packetsOfTrace [Event.flush] = [] := rfl

theorem writeResult_clean_nonempty (fl st : Nat) (r : Result) (hf : r.fields.length ≠ 0) :
    writeResult (cleanSession fl st) r =
      ((resultPhases (cleanSession fl st) r).1 ++ [Event.flush], none) := by
  unfold writeResult
  rw [if_neg hf]
  rcases h : resultPhases (cleanSession fl st) r with ⟨t, o⟩
  have h2 := resultPhases_clean_snd fl st r
  rw [h] at h2
  simp only at h2
  subst h2
  rw [seqE_ok]
  simp [flush_clean, h]

theorem writeResult_clean_state_fields (fl st ra iid wn : Nat) (F : List Field)
    (rows : List (List Value)) (hF : F.length ≠ 0) :
    writeResult (cleanSession fl st) ⟨F, rows, ra, iid, wn, RState.Fields⟩
      = ((writeFields (cleanSession fl st) ⟨F, rows, ra, iid, wn, RState.Fields⟩).1
          ++ [Event.flush], none) := by
  rw [writeResult_clean_nonempty fl st ⟨F, rows, ra, iid, wn, RState.Fields⟩ hF]
  rfl

theorem writeResult_clean_state_rows (fl st ra iid wn : Nat) (F : List Field)
    (rows : List (List Value)) (hF : F.length ≠ 0) :
    writeResult (cleanSession fl st) ⟨F, rows, ra, iid, wn, RState.Rows⟩
      = ((rows.map fun row => Event.pkt (Packet.row (rowBytes row)))
          ++ [Event.flush], none) := by
  rw [writeResult_clean_nonempty fl st ⟨F, rows, ra, iid, wn, RState.Rows⟩ hF]
  have h2 : resultPhases (cleanSession fl st) ⟨F, rows, ra, iid, wn, RState.Rows⟩
      = (rows.map fun row => Event.pkt (Packet.row (rowBytes row)), none) := by
    show writeRows (cleanSession fl st) ⟨F, rows, ra, iid, wn, RState.Rows⟩ = _
    rw [writeRows_clean]
  rw [h2]

theorem writeResult_clean_state_finished (fl st ra iid wn : Nat) (F : List Field)
    (rows : List (List Value)) (hF : F.length ≠ 0) :
    writeResult (cleanSession fl st) ⟨F, rows, ra, iid, wn, RState.Finished⟩
      = ((writeFinish (cleanSession fl st) ⟨F, rows, ra, iid, wn, RState.Finished⟩).1
          ++ [Event.flush], none) := by
  rw [writeResult_clean_nonempty fl st ⟨F, rows, ra, iid, wn, RState.Finished⟩ hF]
  rfl

theorem flush_notin_resultPhases (s : Session) (r : Result) :
    Event.flush ∉ (resultPhases s r).1 := by
  rcases hst : r.state <;> unfold resultPhases <;> rw [hst]
  · exact flush_notin_seqE _ _ (flush_notin_writeFields s r)
      (flush_notin_seqE _ _ (flush_notin_writeRows s r) (flush_notin_writeFinish s r))
  · exact flush_notin_writeFields s r
  · exact flush_notin_writeRows s r
  · exact flush_notin_writeFinish s r

theorem packetsOfTrace_row_batches (B : List (List (List Value))) :
    packetsOfTrace ((B.map fun b =>
        (b.map fun row => Event.pkt (Packet.row (rowBytes row))) ++ [Event.flush]).flatten)
      = B.flatten.map fun row => Packet.row (rowBytes row) := by
  induction B with
  | nil => rfl
  | cons b bs ih =>
      rw [List.map_cons, List.flatten_cons, packetsOfTrace_append, packetsOfTrace_append, ih,
          packetsOfTrace_pkt_map, packetsOfTrace_flush_single, List.append_nil,
          List.flatten_cons, List.map_append]

/-! ## Claim theorems -/

/-- Claim C3: for every Result with empty Fields and State == None, writeResult
produces exactly one OK packet carrying the Result's rows-affected count,
last-insert-id, the session's server status, and the warning count, and
produces no column-descriptor packets and no row packets. -/
theorem writeResult_empty_fields_ok (fl st : Nat) (r : Result)
    (hf : r.fields.length = 0) (hs : r.state = RState.None) :
    writeResult (cleanSession fl st) r =
      ([Event.pkt (Packet.ok r.rowsAffected r.insertID st r.warnings), Event.flush], none)
    ∧ (∀ fs, Packet.columns fs ∉ packetsOfTrace (writeResult (cleanSession fl st) r).1)
    ∧ (∀ d, Packet.row d ∉ packetsOfTrace (writeResult (cleanSession fl st) r).1) := by
  have hmain : writeResult (cleanSession fl st) r =
      ([Event.pkt (Packet.ok r.rowsAffected r.insertID st r.warnings), Event.flush], none) := by
    simp [writeResult, hf, hs, writeOK, cleanSession, appendPkt, seqE, flush]
  refine ⟨hmain, ?_, ?_⟩ <;> simp [hmain, packetsOfTrace]

/-- Witness for C3 at a concrete mutation result. -/
theorem writeResult_empty_fields_ok_witness :
    writeResult (cleanSession 0 5) ⟨[], [], 3, 7, 2, RState.None⟩ =
      ([Event.pkt (Packet.ok 3 7 5 2), Event.flush], none) :=
  (writeResult_empty_fields_ok 0 5 ⟨[], [], 3, 7, 2, RState.None⟩ rfl rfl).1

/-- Claim C4: for every Result with empty Fields and State != None, writeResult
returns the shape-violation error and writes no bytes: no packet is appended
and no flush occurs.  This holds for an arbitrary session, not only a clean
one. -/
theorem writeResult_empty_fields_shape_violation (s : Session) (r : Result)
    (hf : r.fields.length = 0) (hs : r.state ≠ RState.None) :
    writeResult s r =
      ([], some (Err.str "unexpected: result.without.no.fields.but.has.rows.result")) := by
  simp [writeResult, hf, hs]

/-- Witness for C4 at a concrete rows-without-fields result. -/
theorem writeResult_empty_fields_shape_violation_witness :
    writeResult (cleanSession 0 0) ⟨[], [[⟨false, [49]⟩]], 0, 0, 0, RState.Rows⟩ =
      ([], some (Err.str "unexpected: result.without.no.fields.but.has.rows.result")) :=
  writeResult_empty_fields_shape_violation (cleanSession 0 0)
    ⟨[], [[⟨false, [49]⟩]], 0, 0, 0, RState.Rows⟩ rfl (by decide)

/-- Claim C7: every failure value given to the error writer yields a
well-formed error packet: a protocol-classified SQLError is passed through
with its code, state and message unchanged, and any other failure is written
with the generic unknown-error code and state and its textual description as
the message. -/
theorem writeErrFromError_always_packet (fl st : Nat) (e : GoError) :
    writeErrFromError (cleanSession fl st) e =
      (match e with
       | GoError.sqlErr se =>
           ([Event.pkt (Packet.err se.num se.state se.message), Event.flush], none)
       | GoError.other m =>
           ([Event.pkt (Packet.err ER_UNKNOWN_ERROR "HY000" m), Event.flush], none)) := by
  cases e <;>
    simp [writeErrFromError, writeERR, newSQLError, cleanSession, appendPkt, seqE, flush]

/-- Claim C10 (refuting theorem): read off the source, `Close` acquires the
shared lock mode (`s.mu.RLock()`), not the exclusive one, so under
`sync.RWMutex` semantics two `Close` calls — or a `Close` and an accessor
such as `Addr` — may run concurrently; only `SetSchema` takes the exclusive
mode. -/
theorem close_lock_mode_shared :
    lockModeOf SessionMethod.close = LockMode.shared
    ∧ lockModeOf SessionMethod.close ≠ LockMode.exclusive
    ∧ lockModeOf SessionMethod.setSchema = LockMode.exclusive
    ∧ mayRunConcurrently (lockModeOf SessionMethod.close) (lockModeOf SessionMethod.close) = true
    ∧ mayRunConcurrently (lockModeOf SessionMethod.close) (lockModeOf SessionMethod.addr) = true
    ∧ mayRunConcurrently (lockModeOf SessionMethod.setSchema) (lockModeOf SessionMethod.schema)
        = false := by
  decide

/-- Claim C2: the choice of terminal packet is a pure function of the
deprecate-EOF capability bit, never of row/field content: when the bit is
unset, a legacy terminal marker follows the column descriptors and the finish
phase emits the legacy terminal marker; when the bit is set, no marker
follows the column descriptors and the finish phase emits the OK-shaped
terminal carrying rows-affected, last-insert-id, server status and warning
count. -/
theorem terminal_choice_pure_in_flag (fl st : Nat) (r r2 : Result) :
    usesLegacyTerminal (cleanSession fl st) r = usesLegacyTerminal (cleanSession fl st) r2
    ∧ (fl &&& CLIENT_DEPRECATE_EOF = 0 →
         writeFields (cleanSession fl st) r
             = ([Event.pkt (Packet.columns r.fields), Event.pkt Packet.eof], none)
         ∧ writeFinish (cleanSession fl st) r = ([Event.pkt Packet.eof], none))
    ∧ (fl &&& CLIENT_DEPRECATE_EOF ≠ 0 →
         writeFields (cleanSession fl st) r = ([Event.pkt (Packet.columns r.fields)], none)
         ∧ writeFinish (cleanSession fl st) r
             = ([Event.pkt (Packet.okWithEOFHeader r.rowsAffected r.insertID st r.warnings)],
                none)) := by
  by_cases h : fl &&& CLIENT_DEPRECATE_EOF = 0 <;>
    simp [usesLegacyTerminal, writeFields_clean, writeFinish_clean, h]

/-- Witness for C2 at both flag settings on a concrete result. -/
theorem terminal_choice_pure_in_flag_witness :
    writeFinish (cleanSession 0 7) ⟨[⟨"id", 3, 0⟩], [], 1, 2, 3, RState.None⟩
        = ([Event.pkt Packet.eof], none)
    ∧ writeFinish (cleanSession CLIENT_DEPRECATE_EOF 7)
          ⟨[⟨"id", 3, 0⟩], [], 1, 2, 3, RState.None⟩
        = ([Event.pkt (Packet.okWithEOFHeader 1 2 7 3)], none) :=
  ⟨((terminal_choice_pure_in_flag 0 7 ⟨[⟨"id", 3, 0⟩], [], 1, 2, 3, RState.None⟩
      ⟨[⟨"id", 3, 0⟩], [], 1, 2, 3, RState.None⟩).2.1 (by decide)).2,
   ((terminal_choice_pure_in_flag CLIENT_DEPRECATE_EOF 7
      ⟨[⟨"id", 3, 0⟩], [], 1, 2, 3, RState.None⟩
      ⟨[⟨"id", 3, 0⟩], [], 1, 2, 3, RState.None⟩).2.2 (by decide)).2⟩

/-- Claim C9: Close is idempotent and never errors (the Go method returns no
error by type): the first call on a session with an open transport closes the
transport and marks it absent; every subsequent call observes the transport
as absent and closes nothing, so the transport is never double-closed no
matter how many times Close is called. -/
theorem close_idempotent (st : ConnState) :
    (st.connPresent = true →
        (closeSession st).connPresent = false
        ∧ (closeSession st).closedCount = st.closedCount + 1)
    ∧ (st.connPresent = false → closeSession st = st)
    ∧ (closeSession st).connPresent = false
    ∧ (∀ n : Nat, closeSession^[n] (closeSession st) = closeSession st)
    ∧ (∀ n : Nat, (closeSession^[n + 1] st).closedCount ≤ st.closedCount + 1) := by
  have hfix : closeSession (closeSession st) = closeSession st := by
    cases h : st.connPresent <;> simp [closeSession, h]
  refine ⟨?_, ?_, ?_, ?_, ?_⟩
  · intro h; simp [closeSession, h]
  · intro h; simp [closeSession, h]
  · cases h : st.connPresent <;> simp [closeSession, h]
  · intro n; exact Function.iterate_fixed hfix n
  · intro n
    rw [Function.iterate_succ_apply, Function.iterate_fixed hfix n]
    cases h : st.connPresent <;> simp [closeSession, h]

/-- Witness for C9: one close on an open transport, then five more calls. -/
theorem close_idempotent_witness :
    (closeSession { connPresent := true, closedCount := 0 }).closedCount = 0 + 1
    ∧ closeSession^[5] (closeSession { connPresent := true, closedCount := 0 })
        = closeSession { connPresent := true, closedCount := 0 } :=
  ⟨((close_idempotent { connPresent := true, closedCount := 0 }).1 rfl).2,
   (close_idempotent { connPresent := true, closedCount := 0 }).2.2.2.1 5⟩

/-- Claim C1: for every Result with non-empty Fields and State == None,
writeResult produces exactly the fields-phase output, then the rows-phase
output, then the finish-phase output, in that order with no interleaving,
followed by a single flush, and the packet stream ends in exactly one
terminal packet (the single packet of the finish phase). -/
theorem writeResult_none_is_phase_concat (fl st : Nat) (r : Result)
    (hf : r.fields.length ≠ 0) (hs : r.state = RState.None) :
    writeResult (cleanSession fl st) r =
      ((writeFields (cleanSession fl st) r).1 ++ (writeRows (cleanSession fl st) r).1
        ++ (writeFinish (cleanSession fl st) r).1 ++ [Event.flush], none)
    ∧ (writeResult (cleanSession fl st) r).1.count Event.flush = 1
    ∧ (writeResult (cleanSession fl st) r).1.getLast? = some Event.flush
    ∧ ∃ p, isTerminalPacket p = true
        ∧ (writeFinish (cleanSession fl st) r).1 = [Event.pkt p]
        ∧ (packetsOfTrace (writeResult (cleanSession fl st) r).1).getLast? = some p := by
  have hmain := writeResult_clean_nonempty fl st r hf
  rw [resultPhases_clean_none fl st r hs] at hmain
  dsimp only at hmain
  have ca : (writeFields (cleanSession fl st) r).1.count Event.flush = 0 :=
    List.count_eq_zero.mpr (flush_notin_writeFields _ r)
  have cb : (writeRows (cleanSession fl st) r).1.count Event.flush = 0 :=
    List.count_eq_zero.mpr (flush_notin_writeRows _ r)
  have cc : (writeFinish (cleanSession fl st) r).1.count Event.flush = 0 :=
    List.count_eq_zero.mpr (flush_notin_writeFinish _ r)
  refine ⟨hmain, ?_, ?_, ?_⟩
  · rw [hmain]
    dsimp only
    simp [List.count_append, ca, cb, cc]
  · rw [hmain]
    dsimp only
    exact List.getLast?_concat _
  · by_cases h : fl &&& CLIENT_DEPRECATE_EOF = 0
    · have hc : (writeFinish (cleanSession fl st) r).1 = [Event.pkt Packet.eof] := by
        rw [writeFinish_clean]; simp [h]
      refine ⟨Packet.eof, rfl, hc, ?_⟩
      rw [hmain]
      dsimp only
      rw [packetsOfTrace_append, packetsOfTrace_append, packetsOfTrace_append, hc,
          packetsOfTrace_pkt_single, packetsOfTrace_flush_single, List.append_nil]
      exact List.getLast?_concat _
    · have hc : (writeFinish (cleanSession fl st) r).1 =
          [Event.pkt (Packet.okWithEOFHeader r.rowsAffected r.insertID st r.warnings)] := by
        rw [writeFinish_clean]; simp [h]
      refine ⟨Packet.okWithEOFHeader r.rowsAffected r.insertID st r.warnings, rfl, hc, ?_⟩
      rw [hmain]
      dsimp only
      rw [packetsOfTrace_append, packetsOfTrace_append, packetsOfTrace_append, hc,
          packetsOfTrace_pkt_single, packetsOfTrace_flush_single, List.append_nil]
      exact List.getLast?_concat _

/-- Witness for C1 on a one-column, two-row result with the legacy flag
setting. -/
theorem writeResult_none_is_phase_concat_witness :
    writeResult (cleanSession 0 2) ⟨[⟨"id", 3, 0⟩], [[⟨false, [49]⟩], [⟨true, []⟩]],
        0, 0, 0, RState.None⟩ =
      ((writeFields (cleanSession 0 2) ⟨[⟨"id", 3, 0⟩], [[⟨false, [49]⟩], [⟨true, []⟩]],
          0, 0, 0, RState.None⟩).1
        ++ (writeRows (cleanSession 0 2) ⟨[⟨"id", 3, 0⟩], [[⟨false, [49]⟩], [⟨true, []⟩]],
          0, 0, 0, RState.None⟩).1
        ++ (writeFinish (cleanSession 0 2) ⟨[⟨"id", 3, 0⟩], [[⟨false, [49]⟩], [⟨true, []⟩]],
          0, 0, 0, RState.None⟩).1
        ++ [Event.flush], none) :=
  (writeResult_none_is_phase_concat 0 2 ⟨[⟨"id", 3, 0⟩], [[⟨false, [49]⟩], [⟨true, []⟩]],
      0, 0, 0, RState.None⟩ (by decide) rfl).1

/-- Claim C5: invoking writeResult once with State == FieldsOnly, then once
per row batch with State == RowsOnly, then once with State == FinishedOnly,
on matching sub-results, produces the same packet stream as one
State == None call carrying the concatenated rows — byte-for-byte modulo
where the flush boundaries fall (flush events are erased by
packetsOfTrace). -/
theorem streaming_equivalence (fl st ra iid wn : Nat) (F : List Field)
    (B : List (List (List Value))) (hF : F.length ≠ 0) :
    packetsOfTrace
        ((writeResult (cleanSession fl st) ⟨F, [], ra, iid, wn, RState.Fields⟩).1
          ++ (B.map fun b =>
                (writeResult (cleanSession fl st) ⟨F, b, ra, iid, wn, RState.Rows⟩).1).flatten
          ++ (writeResult (cleanSession fl st) ⟨F, [], ra, iid, wn, RState.Finished⟩).1)
      = packetsOfTrace
          (writeResult (cleanSession fl st) ⟨F, B.flatten, ra, iid, wn, RState.None⟩).1
    ∧ (writeResult (cleanSession fl st) ⟨F, [], ra, iid, wn, RState.Fields⟩).2 = none
    ∧ (∀ b ∈ B, (writeResult (cleanSession fl st) ⟨F, b, ra, iid, wn, RState.Rows⟩).2 = none)
    ∧ (writeResult (cleanSession fl st) ⟨F, [], ra, iid, wn, RState.Finished⟩).2 = none
    ∧ (writeResult (cleanSession fl st) ⟨F, B.flatten, ra, iid, wn, RState.None⟩).2
        = none := by
  have hFieldsCall := writeResult_clean_state_fields fl st ra iid wn F [] hF
  have hFinCall := writeResult_clean_state_finished fl st ra iid wn F [] hF
  have hNoneCall := writeResult_clean_nonempty fl st ⟨F, B.flatten, ra, iid, wn, RState.None⟩ hF
  rw [resultPhases_clean_none fl st ⟨F, B.flatten, ra, iid, wn, RState.None⟩ rfl] at hNoneCall
  have hmap : (B.map fun b =>
        (writeResult (cleanSession fl st) ⟨F, b, ra, iid, wn, RState.Rows⟩).1)
      = B.map fun b =>
          (b.map fun row => Event.pkt (Packet.row (rowBytes row))) ++ [Event.flush] := by
    refine List.map_eq_map_iff.mpr ?_
    intro b hb
    rw [writeResult_clean_state_rows fl st ra iid wn F b hF]
  refine ⟨?_, ?_, ?_, ?_, ?_⟩
  · have hwfF : (writeFields (cleanSession fl st) ⟨F, [], ra, iid, wn, RState.Fields⟩).1
        = (writeFields (cleanSession fl st) ⟨F, B.flatten, ra, iid, wn, RState.None⟩).1 := by
      rw [writeFields_clean, writeFields_clean]
    have hwfinF : (writeFinish (cleanSession fl st) ⟨F, [], ra, iid, wn, RState.Finished⟩).1
        = (writeFinish (cleanSession fl st) ⟨F, B.flatten, ra, iid, wn, RState.None⟩).1 := by
      rw [writeFinish_clean, writeFinish_clean]
    have hwrN : (writeRows (cleanSession fl st) ⟨F, B.flatten, ra, iid, wn, RState.None⟩).1
        = B.flatten.map fun row => Event.pkt (Packet.row (rowBytes row)) := by
      rw [writeRows_clean]
    rw [hFieldsCall, hFinCall, hNoneCall, hmap]
    dsimp only
    rw [hwfF, hwfinF, hwrN]
    simp only [packetsOfTrace_append]
    rw [packetsOfTrace_row_batches, packetsOfTrace_pkt_map]
    simp [packetsOfTrace_flush_single, List.append_assoc]
  · rw [hFieldsCall]
  · intro b hb
    rw [writeResult_clean_state_rows fl st ra iid wn F b hF]
  · rw [hFinCall]
  · rw [hNoneCall]

/-- Witness for C5: a one-column result streamed as two single-row batches.
The hypothesis is discharged at a concrete field list. -/
theorem streaming_equivalence_witness :
    ([⟨"a", 1, 0⟩] : List Field).length ≠ 0
    ∧ (writeResult (cleanSession 0 1)
        ⟨[⟨"a", 1, 0⟩], [[⟨false, [49]⟩], [⟨true, []⟩]], 2, 3, 4, RState.None⟩).2 = none :=
  ⟨by decide,
   by
     have h := (streaming_equivalence 0 1 2 3 4 [⟨"a", 1, 0⟩]
       [[[⟨false, [49]⟩]], [[⟨true, []⟩]]] (by decide)).2.2.2.2
     simpa using h⟩

/-- Claim C6: in the rows phase, one packet is emitted per row; within a row
every null value is encoded as the single null marker token and every
non-null value as the length-prefixed raw-bytes encoding; the null marker is
never a zero-length byte string and is distinguishable from every
length-prefixed encoding. -/
theorem rows_phase_null_encoding (fl st : Nat) (r : Result) :
    (writeRows (cleanSession fl st) r).1
        = r.rows.map (fun row => Event.pkt (Packet.row (rowBytes row)))
    ∧ (writeRows (cleanSession fl st) r).2 = none
    ∧ (∀ row : List Value, rowBytes row = (row.map encodeValue).flatten)
    ∧ (∀ v : Value, v.isNull = true → encodeValue v = writeLenEncodeNUL)
    ∧ (∀ v : Value, v.isNull = false → encodeValue v = writeLenEncodeBytes v.raw)
    ∧ writeLenEncodeNUL ≠ []
    ∧ (∀ b : List Nat, writeLenEncodeBytes b ≠ writeLenEncodeNUL) := by
  refine ⟨?_, ?_, fun row => rfl, ?_, ?_, by simp [writeLenEncodeNUL],
    writeLenEncodeBytes_ne_nul⟩
  · simp [writeRows_clean]
  · simp [writeRows_clean]
  · intro v hv; simp [encodeValue, hv]
  · intro v hv; simp [encodeValue, hv]

/-- Witness for C6: a null value encodes to the marker token, and even the
empty byte string's length-prefixed encoding differs from it. -/
theorem rows_phase_null_encoding_witness :
    encodeValue ⟨true, []⟩ = writeLenEncodeNUL
    ∧ writeLenEncodeBytes [] ≠ writeLenEncodeNUL :=
  ⟨(rows_phase_null_encoding 0 0 ⟨[], [], 0, 0, 0, RState.None⟩).2.2.2.1 ⟨true, []⟩ rfl,
   (rows_phase_null_encoding 0 0 ⟨[], [], 0, 0, 0, RState.None⟩).2.2.2.2.2.2 []⟩

/-- Claim C8: for every writeResult call with non-empty Fields, in every
state, a failing phase aborts the call: the emitted trace is exactly the
output of the phases run up to and including the failing one, no flush
event is emitted, and the error is returned to the caller unchanged.  The
state-None case additionally shows the remaining phases of that call are
not executed. -/
theorem phase_error_aborts (s : Session) (r : Result) (e : Err)
    (hf : r.fields.length ≠ 0) :
    ((resultPhases s r).2 = some e → writeResult s r = ((resultPhases s r).1, some e))
    ∧ Event.flush ∉ (resultPhases s r).1
    ∧ (r.state = RState.None →
        ((writeFields s r).2 = some e → writeResult s r = ((writeFields s r).1, some e))
        ∧ ((writeFields s r).2 = none → (writeRows s r).2 = some e →
             writeResult s r = ((writeFields s r).1 ++ (writeRows s r).1, some e))
        ∧ ((writeFields s r).2 = none → (writeRows s r).2 = none →
             (writeFinish s r).2 = some e →
             writeResult s r
               = ((writeFields s r).1 ++ (writeRows s r).1 ++ (writeFinish s r).1, some e)))
    ∧ (r.state = RState.Fields → (writeFields s r).2 = some e →
         writeResult s r = ((writeFields s r).1, some e))
    ∧ (r.state = RState.Rows → (writeRows s r).2 = some e →
         writeResult s r = ((writeRows s r).1, some e))
    ∧ (r.state = RState.Finished → (writeFinish s r).2 = some e →
         writeResult s r = ((writeFinish s r).1, some e))
    ∧ Event.flush ∉ (writeFields s r).1
    ∧ Event.flush ∉ (writeRows s r).1
    ∧ Event.flush ∉ (writeFinish s r).1 := by
  have hw : writeResult s r = seqE (resultPhases s r) fun _ => flush s := by
    unfold writeResult
    rw [if_neg hf]
  refine ⟨?_, flush_notin_resultPhases s r, ?_, ?_, ?_, ?_, flush_notin_writeFields s r,
    flush_notin_writeRows s r, flush_notin_writeFinish s r⟩
  · intro h
    rcases hrp : resultPhases s r with ⟨t, o⟩
    rw [hrp] at h
    dsimp only at h
    subst h
    rw [hw, hrp, seqE_err]
  · intro hs
    have hrp : resultPhases s r
        = seqE (writeFields s r) fun _ => seqE (writeRows s r) fun _ => writeFinish s r := by
      unfold resultPhases
      rw [hs]
    refine ⟨?_, ?_, ?_⟩
    · intro h1
      rcases hwf : writeFields s r with ⟨t1, o1⟩
      rw [hwf] at h1
      dsimp only at h1
      subst h1
      rw [hw, hrp, hwf, seqE_err, seqE_err]
    · intro h1 h2
      rcases hwf : writeFields s r with ⟨t1, o1⟩
      rcases hwr : writeRows s r with ⟨t2, o2⟩
      rw [hwf] at h1
      dsimp only at h1
      subst h1
      rw [hwr] at h2
      dsimp only at h2
      subst h2
      rw [hw, hrp, hwf, hwr]
      simp [seqE]
    · intro h1 h2 h3
      rcases hwf : writeFields s r with ⟨t1, o1⟩
      rcases hwr : writeRows s r with ⟨t2, o2⟩
      rcases hwfin : writeFinish s r with ⟨t3, o3⟩
      rw [hwf] at h1
      dsimp only at h1
      subst h1
      rw [hwr] at h2
      dsimp only at h2
      subst h2
      rw [hwfin] at h3
      dsimp only at h3
      subst h3
      rw [hw, hrp, hwf, hwr, hwfin]
      simp [seqE]
  · intro hst h
    have hrp : resultPhases s r = writeFields s r := by
      unfold resultPhases
      rw [hst]
    rcases hwf : writeFields s r with ⟨t1, o1⟩
    rw [hwf] at h
    dsimp only at h
    subst h
    rw [hw, hrp, hwf, seqE_err]
  · intro hst h
    have hrp : resultPhases s r = writeRows s r := by
      unfold resultPhases
      rw [hst]
    rcases hwr : writeRows s r with ⟨t2, o2⟩
    rw [hwr] at h
    dsimp only at h
    subst h
    rw [hw, hrp, hwr, seqE_err]
  · intro hst h
    have hrp : resultPhases s r = writeFinish s r := by
      unfold resultPhases
      rw [hst]
    rcases hwfin : writeFinish s r with ⟨t3, o3⟩
    rw [hwfin] at h
    dsimp only at h
    subst h
    rw [hw, hrp, hwfin, seqE_err]

/-- Witness for C8: a frame writer that fails on the column-descriptor
append makes writeResult return that error with nothing emitted, both for a
state-None call and for a FieldsOnly call. -/
theorem phase_error_aborts_witness :
    writeResult
        { clientFlags := 0, status := 0,
          appendErr := fun p =>
            match p with
            | Packet.columns _ => some (Err.str "io")
            | _ => none,
          flushErr := none }
        ⟨[⟨"a", 1, 0⟩], [], 0, 0, 0, RState.None⟩
      = ([], some (Err.str "io"))
    ∧ writeResult
        { clientFlags := 0, status := 0,
          appendErr := fun p =>
            match p with
            | Packet.columns _ => some (Err.str "io")
            | _ => none,
          flushErr := none }
        ⟨[⟨"a", 1, 0⟩], [], 0, 0, 0, RState.Fields⟩
      = ([], some (Err.str "io")) :=
  ⟨((phase_error_aborts
      { clientFlags := 0, status := 0,
        appendErr := fun p =>
          match p with
          | Packet.columns _ => some (Err.str "io")
          | _ => none,
        flushErr := none }
      ⟨[⟨"a", 1, 0⟩], [], 0, 0, 0, RState.None⟩ (Err.str "io") (by decide)).2.2.1 rfl).1 rfl,
   ((phase_error_aborts
      { clientFlags := 0, status := 0,
        appendErr := fun p =>
          match p with
          | Packet.columns _ => some (Err.str "io")
          | _ => none,
        flushErr := none }
      ⟨[⟨"a", 1, 0⟩], [], 0, 0, 0, RState.Fields⟩ (Err.str "io") (by decide)).2.2.2.1 rfl) rfl⟩

end MysqlStack
